import Mathlib

set_option autoImplicit false

/-!
# Verification of the homepage dashboard's data-transformation core

Shallow embedding of the GitLab insight builder, reviewer-state annotator,
command-palette filter, weather next-rain detection and timezone resolution
from this repository (`src/widgets/StatusBoard.tsx`, `src/widgets/WeatherBadge.tsx`,
`src/components/CommandPalette.tsx`, `src/App.tsx`), together with theorems
settling the specification's claims about them.

Modelling conventions:
* JavaScript numbers that are only ever integers (timestamps in ms, counts,
  ids, priority scores) are `Int`/`Nat`; weather probabilities/amounts are `Rat`
  (only order comparisons are performed on them, so any ordered field is faithful).
* `new Date(s).getTime()` is a browser primitive; it is modelled by an
  arbitrary parse oracle `parse : String → Option Int`, where `none` stands
  for `NaN` (an unparsable date string).  All JS comparisons with a possibly-NaN
  value are embedded with their JS semantics (`NaN < x`, `NaN >= x` are false).
* `toLocaleTimeString` formatting is a browser primitive, modelled by an
  arbitrary `fmt : Int → String` oracle.
* Optional / possibly-`undefined` TS fields are `Option`; JS truthiness of a
  `boolean | undefined` value is `·.getD false`.
* Network fetches are modelled by oracle functions returning `Except Unit ·`;
  `.error ()` is a rejected promise.  A fetched JSON payload that the code only
  probes with `Array.isArray`/`.length` is modelled as `Option Nat`
  (`some n` = an array of `n` elements, `none` = a non-array value).
* `Array.prototype.sort` with a comparator (stable since ES2019) is modelled by
  `List.mergeSort` on the comparator's `≤ 0` relation.
* Presentational deep-link `href` strings (built by `buildGitLabFilterUrl` /
  `buildGitLabReviewerFilterUrl`, pure URL formatting) are not modelled; no
  claim refers to them.
-/

/-- JS comparison `new Date(u).getTime() < threshold`: false when the date is NaN. -/
def jsLtOpt (o : Option Int) (b : Int) : Bool :=
  match o with
  | some x => decide (x < b)
  | none => false

/-- JS falsiness of a `string | undefined` value (`!s`): true for `undefined` and `""`. -/
def jsFalsyStr (o : Option String) : Bool :=
  (o.getD "") = ""

/-- JS `String.prototype.trim` (a runtime primitive), modelled structurally:
whitespace is stripped from both ends of the character sequence. -/
def jsTrim (s : String) : String :=
  ⟨((s.data.dropWhile Char.isWhitespace).reverse.dropWhile
      Char.isWhitespace).reverse⟩

/-- JS `String.prototype.toLowerCase` (a runtime primitive), modelled as the
character-wise lowercase map. -/
def jsToLower (s : String) : String :=
  ⟨s.data.map Char.toLower⟩

/-! ## Data model (from `src/widgets/StatusBoard.tsx`) -/

/-- `head_pipeline` object of a GitLab MR (only `status` is ever read). -/
structure HeadPipeline where
  status : Option String
  web_url : Option String
deriving Repr, DecidableEq

/-- Nested `user` object inside an `approved_by` entry (only `username` is read). -/
structure ApprovalUser where
  username : Option String
deriving Repr, DecidableEq

/-- An `approved_by` entry: `{ username?, user?: { username? } }`
(the unread `id`/`name` fields are dropped). -/
structure ApprovalEntry where
  username : Option String
  user : Option ApprovalUser
deriving Repr, DecidableEq

/-- The `GitLabMergeRequest` record.  `labels` / `reviewers` hold the
`title` / `name` strings of the wrapped objects. -/
structure GitLabMergeRequest where
  id : Int
  iid : Int
  project_id : Int
  title : String
  web_url : String
  updated_at : String
  merged_at : Option String
  source_branch : String
  target_branch : String
  merge_status : Option String
  draft : Option Bool
  work_in_progress : Option Bool
  labels : Option (List String)
  reviewers : Option (List String)
  approved_by : Option (List ApprovalEntry)
  user_notes_count : Option Int
  blocking_discussions_resolved : Option Bool
  head_pipeline : Option HeadPipeline
deriving Repr, DecidableEq

/-- `mr.head_pipeline?.status`. -/
def pipelineStatusOf (mr : GitLabMergeRequest) : Option String :=
  mr.head_pipeline.bind (·.status)

/-- `mr.draft || mr.work_in_progress` as a JS truthiness test. -/
def draftOf (mr : GitLabMergeRequest) : Bool :=
  mr.draft.getD false || mr.work_in_progress.getD false

/-- `ReviewState`: four tri-state booleans (`boolean | undefined`). -/
structure ReviewState where
  reviewed : Option Bool
  commented : Option Bool
  commentsResolved : Option Bool
  approved : Option Bool
deriving Repr, DecidableEq

/-- `ReviewCategory`. -/
inductive ReviewCategory where
  | needsReview
  | inReview
  | reviewed
deriving Repr, DecidableEq

/-- `getReviewCategory` (StatusBoard.tsx lines 792-804). -/
def getReviewCategory (reviewState : Option ReviewState) : ReviewCategory :=
  match reviewState with
  | none => .needsReview
  | some s =>
    if s.approved.getD false ∧ s.commentsResolved ≠ some false then
      .reviewed
    else if s.commented.getD false ∧ ¬ s.approved.getD false then
      .inReview
    else if s.approved.getD false ∧ s.commentsResolved = some false then
      .inReview
    else
      .needsReview

/-- A `StatusItem` metric.  The presentational deep-link `href` is not modelled. -/
structure StatusItem where
  id : String
  label : String
  value : String
  showValue : Option Bool
deriving Repr, DecidableEq

/-- A `StatusHighlight` projection of one merge request. -/
structure StatusHighlight where
  title : String
  url : Option String
  meta : String
  badge : Option String
  tags : Option (List String)
  updatedAt : Option String
  sourceBranch : Option String
  targetBranch : Option String
  pipelineStatus : Option String
  reviewers : Option (List String)
  labels : Option (List String)
  isStale : Option Bool
  hasConflicts : Option Bool
  projectId : Option Int
  iid : Option Int
  reviewState : Option ReviewState
  reviewCategory : Option ReviewCategory
deriving Repr, DecidableEq

/-! ## Insight builder (assigned MRs) -/

/-- 48 hours in milliseconds: the staleness window. -/
def staleMs : Int := 1000 * 60 * 60 * 48

/-- `getAssignedPriorityScore` (lines 591-598): the sequential `score += …`
mutations written as a sum. -/
def getAssignedPriorityScore (parse : String → Option Int)
    (staleThreshold : Int) (mr : GitLabMergeRequest) : Int :=
  (if pipelineStatusOf mr = some "failed" then 3 else 0)
  + (if mr.merge_status = some "cannot_be_merged" then 3 else 0)
  + (if jsLtOpt (parse mr.updated_at) staleThreshold then 2 else 0)
  - (if draftOf mr then 1 else 0)

/-- The comparator passed to `.sort` in `buildGitLabInsights` (lines 553-558):
priority difference, then `new Date(b).getTime() - new Date(a).getTime()`.
A NaN comparator result is treated as `0` per the ES `SortCompare` semantics. -/
def assignedCmp (parse : String → Option Int) (staleThreshold : Int)
    (a b : GitLabMergeRequest) : Int :=
  let d := getAssignedPriorityScore parse staleThreshold b
           - getAssignedPriorityScore parse staleThreshold a
  if d ≠ 0 then d
  else
    match parse b.updated_at, parse a.updated_at with
    | some tb, some ta => tb - ta
    | _, _ => 0

/-- `assignedCmp` as a boolean "less or equal" relation for the stable sort. -/
def assignedLE (parse : String → Option Int) (staleThreshold : Int)
    (a b : GitLabMergeRequest) : Bool :=
  decide (assignedCmp parse staleThreshold a b ≤ 0)

/-- `buildHighlightTags` (lines 887-910). -/
def buildHighlightTags (parse : String → Option Int)
    (pipelineStatus mergeStatus : Option String) (draft : Bool)
    (updatedAt : String) (staleThreshold : Int) : List String :=
  (if pipelineStatus = some "failed" then ["Pipeline"] else [])
  ++ (if mergeStatus = some "cannot_be_merged" then ["Conflicts"] else [])
  ++ (if draft then ["Draft"] else [])
  ++ (match parse updatedAt with
      | some updated => if updated < staleThreshold then ["Stale"] else []
      | none => [])

/-- The per-record highlight projection of `buildGitLabInsights` (lines 560-586). -/
def mkAssignedHighlight (parse : String → Option Int) (staleThreshold : Int)
    (mr : GitLabMergeRequest) : StatusHighlight :=
  { title := mr.title
  , url := some mr.web_url
  , meta := mr.source_branch ++ " → " ++ mr.target_branch
  , badge :=
      if pipelineStatusOf mr = some "failed" then some "Pipeline failed"
      else if mr.merge_status = some "cannot_be_merged" then some "Conflicts"
      else if draftOf mr then some "Draft"
      else none
  , tags := some (buildHighlightTags parse (pipelineStatusOf mr) mr.merge_status
      (draftOf mr) mr.updated_at staleThreshold)
  , updatedAt := some mr.updated_at
  , sourceBranch := some mr.source_branch
  , targetBranch := some mr.target_branch
  , pipelineStatus := pipelineStatusOf mr
  , reviewers := mr.reviewers.map (·.filter (· ≠ ""))
  , labels := mr.labels.map (·.filter (· ≠ ""))
  , isStale := some (jsLtOpt (parse mr.updated_at) staleThreshold)
  , hasConflicts := some (mr.merge_status = some "cannot_be_merged")
  , projectId := none
  , iid := none
  , reviewState := none
  , reviewCategory := none }

/-- Number of MRs counted by the "Stale >48h" metric (line 520). -/
def staleCount (parse : String → Option Int) (staleThreshold : Int)
    (mrs : List GitLabMergeRequest) : Nat :=
  (mrs.filter (fun mr => jsLtOpt (parse mr.updated_at) staleThreshold)).length

/-- The stable sort of the MR batch used for the assigned highlight list. -/
def assignedOrder (parse : String → Option Int) (now : Int)
    (mrs : List GitLabMergeRequest) : List GitLabMergeRequest :=
  List.mergeSort mrs (assignedLE parse (now - staleMs))

/-- Result record of the insight builders (`{ metrics, highlights }`). -/
structure InsightResult where
  metrics : List StatusItem
  highlights : List StatusHighlight
deriving Repr, DecidableEq

/-- `buildGitLabInsights` (lines 516-589). -/
def buildGitLabInsights (parse : String → Option Int) (now : Int)
    (mrs : List GitLabMergeRequest) : InsightResult :=
  let staleThreshold := now - staleMs
  let stale := staleCount parse staleThreshold mrs
  let pipelineFailing :=
    (mrs.filter (fun mr => pipelineStatusOf mr = some "failed")).length
  let conflicts :=
    (mrs.filter (fun mr => mr.merge_status = some "cannot_be_merged")).length
  { metrics :=
      [ { id := "open", label := "Open", value := toString mrs.length, showValue := none }
      , { id := "stale", label := "Stale >48h", value := toString stale, showValue := none }
      , { id := "pipeline", label := "Pipeline failing", value := toString pipelineFailing, showValue := none }
      , { id := "conflicts", label := "Conflicts", value := toString conflicts, showValue := none } ]
  , highlights :=
      ((assignedOrder parse now mrs).take 10).map
        (mkAssignedHighlight parse staleThreshold) }

/-- The transform of the `gitlab` status (lines 129-134): a payload is either an
array of MRs (`.inl`) or any non-array value (`.inr`), which is coerced to `[]`. -/
def gitlabTransform (parse : String → Option Int) (now : Int)
    (payload : Sum (List GitLabMergeRequest) Unit) : InsightResult :=
  buildGitLabInsights parse now
    (match payload with
     | .inl mrs => mrs
     | .inr _ => [])

/-! ## Reviewer-state annotator and reviewer insight builder -/

/-- Module-level GitLab configuration (`VITE_GITLAB_TOKEN` / `VITE_GITLAB_USERNAME`),
passed explicitly here. -/
structure GitLabConfig where
  token : Option String
  username : String
deriving Repr, DecidableEq

/-- `hasUserApproved` (lines 704-710). -/
def hasUserApproved (username : String) (mr : GitLabMergeRequest) : Bool :=
  if username = "" then false
  else
    match mr.approved_by with
    | none => false
    | some entries =>
      entries.any fun entry =>
        (match entry.user with
         | some u => u.username
         | none => entry.username) = some username

/-- The `ReviewState` seeded from the MR's own fields (lines 630-635; the same
object is built inline in the sort comparator, lines 613-622, without the
`reviewed` key — both leave `reviewed` undefined). -/
def baseReviewState (username : String) (mr : GitLabMergeRequest) : ReviewState :=
  { approved := some (hasUserApproved username mr)
  , commented := mr.user_notes_count.map (fun n => decide (n > 0))
  , commentsResolved := mr.blocking_discussions_resolved
  , reviewed := none }

/-- `categoryOrder` (lines 608-612). -/
def categoryOrder : ReviewCategory → Int
  | .needsReview => 0
  | .inReview => 1
  | .reviewed => 2

/-- The comparator passed to `.sort` in `buildReviewerInsights` (lines 607-628):
category order ascending, then priority score descending, then recency. -/
def reviewerCmp (parse : String → Option Int) (staleThreshold : Int)
    (username : String) (a b : GitLabMergeRequest) : Int :=
  let catA := categoryOrder (getReviewCategory (some (baseReviewState username a)))
  let catB := categoryOrder (getReviewCategory (some (baseReviewState username b)))
  if catA ≠ catB then catA - catB
  else
    let d := getAssignedPriorityScore parse staleThreshold b
             - getAssignedPriorityScore parse staleThreshold a
    if d ≠ 0 then d
    else
      match parse b.updated_at, parse a.updated_at with
      | some tb, some ta => tb - ta
      | _, _ => 0

/-- `reviewerCmp` as a boolean relation for the stable sort. -/
def reviewerLE (parse : String → Option Int) (staleThreshold : Int)
    (username : String) (a b : GitLabMergeRequest) : Bool :=
  decide (reviewerCmp parse staleThreshold username a b ≤ 0)

/-- `buildReviewTags` (lines 712-736). -/
def buildReviewTags (reviewState : ReviewState)
    (pipelineFailed hasConflicts : Bool)
    (reviewCategory : Option ReviewCategory) : List String :=
  (if pipelineFailed then ["Pipeline"] else [])
  ++ (if hasConflicts then ["Conflicts"] else [])
  ++ (if reviewState.approved.getD false then ["Approved"] else [])
  ++ (if reviewState.commented.getD false ∧ ¬ reviewState.approved.getD false
      then ["Commented"] else [])
  ++ (if reviewState.commentsResolved = some false then ["Unresolved"] else [])
  ++ (if reviewState.commentsResolved.getD false
        ∧ (reviewState.approved.getD false ∨ reviewState.commented.getD false)
      then ["Resolved"] else [])
  ++ (match reviewCategory with
      | some .needsReview => ["Needs review"]
      | some .inReview => ["In review"]
      | some .reviewed => ["Reviewed"]
      | none => [])

/-- The per-record base highlight of `buildReviewerInsights` (lines 629-662). -/
def mkReviewerBaseHighlight (username : String) (mr : GitLabMergeRequest) :
    StatusHighlight :=
  let reviewState := baseReviewState username mr
  let hasConflicts := mr.merge_status = some "cannot_be_merged"
  let pipelineFailed := pipelineStatusOf mr = some "failed"
  let reviewCategory := getReviewCategory (some reviewState)
  { title := mr.title
  , url := some mr.web_url
  , meta := mr.source_branch ++ " → " ++ mr.target_branch
  , badge :=
      if pipelineFailed then some "Pipeline failed"
      else if hasConflicts then some "Conflicts"
      else none
  , tags := some (buildReviewTags reviewState pipelineFailed hasConflicts
      (some reviewCategory))
  , updatedAt := some mr.updated_at
  , sourceBranch := some mr.source_branch
  , targetBranch := some mr.target_branch
  , pipelineStatus := pipelineStatusOf mr
  , reviewers := mr.reviewers.map (·.filter (· ≠ ""))
  , labels := mr.labels.map (·.filter (· ≠ ""))
  , isStale := none
  , hasConflicts := some hasConflicts
  , projectId := some mr.project_id
  , iid := some mr.iid
  , reviewState := some reviewState
  , reviewCategory := some reviewCategory }

/-- The two supplemental per-item fetches of the annotator, as oracles keyed by
`(projectId, iid)`.  `.error ()` models a rejected fetch; a successful payload
is `some n` (an array of `n` items) or `none` (a non-array value). -/
structure FetchOracles where
  notes : Int → Int → Except Unit (Option Nat)
  discussions : Int → Int → Except Unit (Option Nat)

/-- The per-highlight body of `annotateReviewerHighlights` (lines 740-787).
`!highlight.projectId || !highlight.iid` is the JS falsiness test, which also
fires on the number `0`. -/
def annotateOne (oracles : FetchOracles) (highlight : StatusHighlight) :
    StatusHighlight :=
  match highlight.projectId, highlight.iid with
  | some p, some i =>
    if p = 0 ∨ i = 0 then highlight
    else
      let baseCommented := (highlight.reviewState.bind (·.commented)).getD false
      let baseResolved := highlight.reviewState.bind (·.commentsResolved)
      let commented : Bool :=
        match oracles.notes p i with
        | .ok (some n) => decide (n > 0)
        | .ok none => false
        | .error _ => baseCommented
      let commentsResolved : Option Bool :=
        if baseResolved = none then
          match oracles.discussions p i with
          | .ok (some n) => some (decide (n = 0))
          | .ok none => some true
          | .error _ => baseResolved
        else baseResolved
      let reviewed : Option Bool :=
        if commented then some true else highlight.reviewState.bind (·.approved)
      let updatedReviewState : ReviewState :=
        { reviewed := reviewed
        , commented := some commented
        , commentsResolved := commentsResolved
        , approved := highlight.reviewState.bind (·.approved) }
      let reviewCategory := getReviewCategory (some updatedReviewState)
      { highlight with
          reviewState := some updatedReviewState
        , tags := some (buildReviewTags updatedReviewState
            (highlight.pipelineStatus = some "failed")
            (highlight.hasConflicts.getD false)
            (some reviewCategory))
        , reviewCategory := some reviewCategory }
  | _, _ => highlight

/-- `annotateReviewerHighlights` (lines 738-790): `Promise.all` over the
independent per-item annotations preserves order and length. -/
def annotateReviewerHighlights (cfg : GitLabConfig) (oracles : FetchOracles)
    (highlights : List StatusHighlight) : List StatusHighlight :=
  if jsFalsyStr cfg.token ∨ cfg.username = "" then highlights
  else highlights.map (annotateOne oracles)

/-- The stable sort of the reviewer-queue batch (before annotation). -/
def reviewerBaseOrder (parse : String → Option Int) (now : Int)
    (username : String) (mrs : List GitLabMergeRequest) :
    List GitLabMergeRequest :=
  List.mergeSort mrs (reviewerLE parse (now - staleMs) username)

/-- The final category used for the metric counts (line 667):
`highlight.reviewCategory ?? getReviewCategory(highlight.reviewState)`. -/
def highlightCategory (h : StatusHighlight) : ReviewCategory :=
  h.reviewCategory.getD (getReviewCategory h.reviewState)

/-- `buildReviewerInsights` (lines 600-702).  The `unresolved` / `approved`
counts computed at the top of the source function are dead locals (never used
in the returned value) and are not modelled. -/
def buildReviewerInsights (parse : String → Option Int) (now : Int)
    (cfg : GitLabConfig) (oracles : FetchOracles)
    (mrs : List GitLabMergeRequest) : InsightResult :=
  let baseHighlights :=
    (reviewerBaseOrder parse now cfg.username mrs).map
      (mkReviewerBaseHighlight cfg.username)
  let highlights := annotateReviewerHighlights cfg oracles baseHighlights
  let needsReviewCount :=
    (highlights.filter (fun h => highlightCategory h = .needsReview)).length
  let inReviewCount :=
    (highlights.filter (fun h => highlightCategory h = .inReview)).length
  let reviewedCount :=
    (highlights.filter (fun h => highlightCategory h = .reviewed)).length
  { metrics :=
      [ { id := "needs-review", label := "Needs review"
        , value := toString needsReviewCount, showValue := some false }
      , { id := "in-review", label := "In review"
        , value := toString inReviewCount, showValue := some false }
      , { id := "reviewed", label := "Reviewed"
        , value := toString reviewedCount, showValue := some false } ]
  , highlights := highlights }

/-! ## Command palette filter (`src/components/CommandPalette.tsx`) -/

/-- `CommandItem` (the `action` callback is a side effect and is not modelled). -/
structure CommandItem where
  id : String
  label : String
  description : Option String
  keywords : Option (List String)
  href : Option String
  badge : Option String
deriving Repr, DecidableEq

/-- JS `String.prototype.includes`: substring containment. -/
def jsIncludes (haystack needle : String) : Bool :=
  decide (needle.toList <:+: haystack.toList)

/-- The lowercased `[label, description ?? '', ...keywords].join(' ')` haystack
of one item (lines 50-56). -/
def commandHaystack (item : CommandItem) : String :=
  jsToLower (String.intercalate " "
    (item.label :: item.description.getD "" :: item.keywords.getD []))

/-- The `filtered` list of the palette (lines 45-63): empty normalized query
shows the first 12 items; otherwise items are scored 1/0 by substring match,
kept when positive, capped to 24 and unwrapped. -/
def paletteFiltered (query : String) (commands : List CommandItem) :
    List CommandItem :=
  let normalized := jsToLower (jsTrim query)
  if normalized = "" then commands.take 12
  else
    let scored := commands.map (fun item =>
      (item, if jsIncludes (commandHaystack item) normalized then 1 else 0))
    (((scored.filter (fun s => s.2 > 0)).take 24).map (fun s => s.1))

/-! ## Weather next-rain detection (`src/widgets/WeatherBadge.tsx`) -/

/-- The `hourly` block of the forecast payload. -/
structure HourlyBlock where
  time : Option (List String)
  precipitation_probability : Option (List Rat)
  precipitation : Option (List Rat)

/-- The rain condition at index `i` (line 1028): `chance >= 40 || amount > 0`,
where an out-of-range `chance` is `undefined` (the comparison is false) and a
missing amount defaults to `0`. -/
def rainHourQualifies (probs : List Rat) (precip : Option (List Rat))
    (i : Nat) : Bool :=
  (match probs.get? i with
   | some chance => decide (chance ≥ 40)
   | none => false)
  || decide ((precip.bind (·.get? i)).getD 0 > 0)

/-- The scan loop of `extractNextRain` (lines 1025-1033): on the first
qualifying hour, return its formatted label unless its timestamp is NaN,
in which case scanning continues. -/
def extractNextRainGo (parse : String → Option Int) (fmt : Int → String)
    (probs : List Rat) (precip : Option (List Rat)) :
    List String → Nat → Option String
  | [], _ => none
  | t :: rest, i =>
    if rainHourQualifies probs precip i then
      match parse t with
      | some timestamp => some (fmt timestamp)
      | none => extractNextRainGo parse fmt probs precip rest (i + 1)
    else extractNextRainGo parse fmt probs precip rest (i + 1)

/-- `extractNextRain` (lines 1020-1035). -/
def extractNextRain (parse : String → Option Int) (fmt : Int → String)
    (hourly : Option HourlyBlock) : Option String :=
  match hourly with
  | none => none
  | some h =>
    match h.time, h.precipitation_probability with
    | some times, some probs =>
      extractNextRainGo parse fmt probs h.precipitation times 0
    | _, _ => none

/-- `RainSample` (time string, probability %, amount mm; the presentational
`label` field is not modelled). -/
structure RainSample where
  time : String
  probability : Rat
  amount : Rat

/-- The `find` predicate of `computeNextRainMinutes` (lines 1081-1085). -/
def nextRainSamplePred (parse : String → Option Int) (now : Int)
    (s : RainSample) : Bool :=
  match parse s.time with
  | none => false
  | some ts =>
    decide (ts ≥ now) && (decide (s.probability ≥ 40) || decide (s.amount > 0))

/-- `computeNextRainMinutes` (lines 1078-1092): minute offset from `now` of the
first future qualifying sample (`Math.floor(diff / 60000)`). -/
def computeNextRainMinutes (parse : String → Option Int) (now : Int)
    (samples : Option (List RainSample)) : Option Int :=
  match samples with
  | none => none
  | some ss =>
    if ss.isEmpty then none
    else
      match ss.find? (nextRainSamplePred parse now) with
      | none => none
      | some s =>
        match parse s.time with
        | none => none
        | some ts =>
          let diff := ts - now
          if diff < 0 then none else some (diff / 60000)

/-! ## Timezone resolution (`src/App.tsx` lines 38-57 and 175-185) -/

/-- `normalizedTimeZone`: `(setting ?? '').trim() || SYSTEM_TIME_ZONE`. -/
def normalizedTimeZone (system setting : String) : String :=
  if jsTrim setting = "" then system else jsTrim setting

/-- `resolvedTimeZone`: the normalized value when `Intl.DateTimeFormat` accepts
it, the system zone otherwise.  Validity of an identifier is a browser
primitive, modelled by the oracle `isValid`. -/
def resolvedTimeZone (isValid : String → Bool) (system setting : String) :
    String :=
  if isValid (normalizedTimeZone system setting) then
    normalizedTimeZone system setting
  else system

/-- `timeZoneValid`: the effect at lines 50-57 validates the same normalized
value on every change of the setting. -/
def timeZoneValid (isValid : String → Bool) (system setting : String) : Bool :=
  isValid (normalizedTimeZone system setting)

/-- The inline warning (lines 181-185) renders exactly when `!timeZoneValid`. -/
def timeZoneWarningShown (isValid : String → Bool) (system setting : String) :
    Bool :=
  ! timeZoneValid isValid system setting

/-- The editable input renders the raw stored setting (line 176:
`value={timeZoneSetting}`), not the normalized or resolved value. -/
def timeZoneInputValue (setting : String) : String :=
  setting

/-! ## Auxiliary definitions and concrete inputs used by the theorems -/

/-- A fixed date-parse oracle for the concrete stale+conflicted scenario:
the MR's `updated_at` string parses to 72 hours before time `0`. -/
def scenarioParse : String → Option Int :=
  fun s => if s = "mr-72h" then some (-259200000) else none

/-- The concrete scenario MR: updated 72 hours ago, `cannot_be_merged`,
no pipeline status, not a draft. -/
def scenarioMR : GitLabMergeRequest :=
  { id := 1, iid := 5, project_id := 7, title := "Fix flaky deploy"
  , web_url := "https://gitlab.example/mr/5", updated_at := "mr-72h"
  , merged_at := none, source_branch := "fix", target_branch := "main"
  , merge_status := some "cannot_be_merged", draft := some false
  , work_in_progress := none, labels := none, reviewers := none
  , approved_by := none, user_notes_count := none
  , blocking_discussions_resolved := none, head_pipeline := none }

/-- A date-parse oracle that fails on every string (every timestamp NaN). -/
def noneParse : String → Option Int :=
  fun _ => none

/-- A total date-parse oracle (every string parses to time 0), for witnesses. -/
def zeroParse : String → Option Int :=
  fun _ => some 0

/-- Short-hand for the base-category rank used by the reviewer comparator. -/
def baseCategoryRank (username : String) (mr : GitLabMergeRequest) : Int :=
  categoryOrder (getReviewCategory (some (baseReviewState username mr)))

/-- A concrete GitLab configuration with a non-empty token and username. -/
def failCfgW : GitLabConfig :=
  { token := some "token", username := "casper" }

/-- Fetch oracles whose every request rejects. -/
def failOraclesW : FetchOracles :=
  { notes := fun _ _ => .error (), discussions := fun _ _ => .error () }

/-- A reviewer-queue MR on which the user left no note yet
(`user_notes_count = 0`, not approved, discussions resolved). -/
def rvMrNoNote : GitLabMergeRequest :=
  { id := 10, iid := 1, project_id := 3, title := "Add cache"
  , web_url := "https://gitlab.example/mr/1", updated_at := "t-a"
  , merged_at := none, source_branch := "cache", target_branch := "main"
  , merge_status := none, draft := none, work_in_progress := none
  , labels := none, reviewers := none, approved_by := some []
  , user_notes_count := some 0, blocking_discussions_resolved := some true
  , head_pipeline := none }

/-- A reviewer-queue MR on which the user already commented
(`user_notes_count = 1`, not approved, discussions resolved). -/
def rvMrWithNote : GitLabMergeRequest :=
  { id := 11, iid := 2, project_id := 3, title := "Drop legacy route"
  , web_url := "https://gitlab.example/mr/2", updated_at := "t-b"
  , merged_at := none, source_branch := "legacy", target_branch := "main"
  , merge_status := none, draft := none, work_in_progress := none
  , labels := none, reviewers := none, approved_by := some []
  , user_notes_count := some 1, blocking_discussions_resolved := some true
  , head_pipeline := none }

/-- Fetch oracles under which the notes endpoint reports one note for
`iid = 1` and none for any other MR (and discussions requests reject). -/
def rvOracles : FetchOracles :=
  { notes := fun _ i => .ok (some (if i = 1 then 1 else 0))
  , discussions := fun _ _ => .error () }

/-- A reviewer highlight whose base `ReviewState` has an *absent* `commented`
field (discussions resolved, not approved), with usable project id and iid. -/
def annotHighlightBase : StatusHighlight :=
  { title := "Refactor config", url := some "https://gitlab.example/mr/9"
  , meta := "cfg → main", badge := none, tags := some []
  , updatedAt := some "t-a", sourceBranch := some "cfg"
  , targetBranch := some "main", pipelineStatus := none
  , reviewers := none, labels := none, isStale := none
  , hasConflicts := some false, projectId := some 3, iid := some 1
  , reviewState := some
      { reviewed := none, commented := none
      , commentsResolved := some true, approved := some false }
  , reviewCategory := some .needsReview }

/-- Date-parse oracle for the weather scenarios: three hourly labels at
times 0 ms, 3 600 000 ms (one hour) and 7 200 000 ms (two hours). -/
def wParse : String → Option Int :=
  fun s =>
    if s = "h0" then some 0
    else if s = "h1" then some 3600000
    else if s = "h2" then some 7200000
    else none

/-- Time-label formatting oracle for the weather scenarios. -/
def wFmt : Int → String :=
  fun t => "at-" ++ toString t

/-- The spec's hourly scenario: `[{t0, 10%, 0mm}, {t1, 45%, 0mm}, {t2, 90%, 2mm}]`. -/
def scenarioHourly : HourlyBlock :=
  { time := some ["h0", "h1", "h2"]
  , precipitation_probability := some [10, 45, 90]
  , precipitation := some [0, 0, 2] }

/-- The same scenario as `RainSample`s for the minutes variant. -/
def scenarioSamples : List RainSample :=
  [ { time := "h0", probability := 10, amount := 0 }
  , { time := "h1", probability := 45, amount := 0 }
  , { time := "h2", probability := 90, amount := 2 } ]

/-- An hourly series whose single (qualifying) hour lies at time 0,
strictly before a "now" of one hour. -/
def pastHourly : HourlyBlock :=
  { time := some ["h0"]
  , precipitation_probability := some [90]
  , precipitation := some [2] }

/-- A command whose only occurrence of "gitlab" is in its keyword list. -/
def kwItem : CommandItem :=
  { id := "gl", label := "Open board", description := none
  , keywords := some ["gitlab"], href := none, badge := none }

/-- A timezone-validity oracle accepting exactly `"UTC"` and
`"Europe/Amsterdam"` (`Intl.DateTimeFormat` accepts these and rejects the
padded `" UTC "` and the empty string). -/
def tzValidUTC : String → Bool :=
  fun s => s = "UTC" || s = "Europe/Amsterdam"

/-! ## Claim theorems -/

/-- **C2.** The review-category function is total and deterministic over every
combination of the tri-state fields `{approved, commented, commentsResolved}`
(and any value of the ignored `reviewed` field): it returns `reviewed` exactly
when approved is true and commentsResolved is not false; `in-review` exactly
when (commented is true and approved is not true) or (approved is true and
commentsResolved is false); and `needs-review` in every other case, including
when the `ReviewState` is entirely absent. -/
theorem getReviewCategory_total_C2 :
    getReviewCategory none = .needsReview ∧
    ∀ (v c r a : Option Bool),
      (getReviewCategory (some ⟨v, c, r, a⟩) = .reviewed ↔
        (a = some true ∧ r ≠ some false)) ∧
      (getReviewCategory (some ⟨v, c, r, a⟩) = .inReview ↔
        ((c = some true ∧ a ≠ some true) ∨ (a = some true ∧ r = some false))) ∧
      (getReviewCategory (some ⟨v, c, r, a⟩) = .needsReview ↔
        (¬ (a = some true ∧ r ≠ some false) ∧
         ¬ ((c = some true ∧ a ≠ some true) ∨ (a = some true ∧ r = some false)))) := by
  refine ⟨rfl, fun v c r a => ?_⟩
  rcases v with _ | (_ | _) <;> rcases c with _ | (_ | _) <;>
    rcases r with _ | (_ | _) <;> rcases a with _ | (_ | _) <;> decide

/-- **C7.** A non-array payload is coerced to the empty MR list, and building
insights from the empty list yields the four metrics `open`, `stale`,
`pipeline`, `conflicts` with value `"0"` each and an empty highlight list
(the builder is a total function: no exception). -/
theorem emptyPayload_insights_C7 (parse : String → Option Int) (now : Int) :
    gitlabTransform parse now (.inr ()) = buildGitLabInsights parse now [] ∧
    (buildGitLabInsights parse now []).metrics.map (fun m => (m.id, m.value)) =
      [("open", "0"), ("stale", "0"), ("pipeline", "0"), ("conflicts", "0")] ∧
    (buildGitLabInsights parse now []).highlights = [] := by
  refine ⟨rfl, ?_, ?_⟩ <;>
    simp [buildGitLabInsights, staleCount, assignedOrder, gitlabTransform] <;>
    decide

/-- **C8.** For the single MR updated 72 hours ago with merge status
`cannot_be_merged`, no pipeline status and draft false, the insight builder
produces one highlight with tags exactly `["Conflicts", "Stale"]`, assigns it
priority score 5, and produces metrics `open = 1`, `stale = 1`, `pipeline = 0`,
`conflicts = 1`. -/
theorem staleConflict_scenario_C8 :
    (buildGitLabInsights scenarioParse 0 [scenarioMR]).highlights.map
        (fun h => h.tags) = [some ["Conflicts", "Stale"]] ∧
    getAssignedPriorityScore scenarioParse (0 - staleMs) scenarioMR = 5 ∧
    (buildGitLabInsights scenarioParse 0 [scenarioMR]).metrics.map
        (fun m => (m.id, m.value)) =
      [("open", "1"), ("stale", "1"), ("pipeline", "0"), ("conflicts", "1")] := by
  refine ⟨?_, by decide, ?_⟩ <;>
    simp [buildGitLabInsights, staleCount, assignedOrder, List.mergeSort_singleton,
      mkAssignedHighlight, buildHighlightTags, scenarioMR, scenarioParse,
      pipelineStatusOf, draftOf, jsLtOpt, staleMs] <;>
    decide

/-- **C10.** An MR whose `updated_at` does not parse (NaN timestamp) is never
treated as stale: no `Stale` tag, `isStale` false on its highlight, no `+2`
stale bonus in its priority score, and no contribution to the stale metric
count. -/
theorem nanTimestamp_notStale_C10 (parse : String → Option Int) (now : Int)
    (mr : GitLabMergeRequest) (rest : List GitLabMergeRequest)
    (h : parse mr.updated_at = none) :
    "Stale" ∉ buildHighlightTags parse (pipelineStatusOf mr) mr.merge_status
        (draftOf mr) mr.updated_at (now - staleMs) ∧
    (mkAssignedHighlight parse (now - staleMs) mr).isStale = some false ∧
    getAssignedPriorityScore parse (now - staleMs) mr =
      (if pipelineStatusOf mr = some "failed" then 3 else 0)
      + (if mr.merge_status = some "cannot_be_merged" then 3 else 0)
      - (if draftOf mr then 1 else 0) ∧
    staleCount parse (now - staleMs) (mr :: rest) =
      staleCount parse (now - staleMs) rest := by
  refine ⟨?_, ?_, ?_, ?_⟩
  · simp only [buildHighlightTags, h, List.mem_append]
    split <;> split <;> split <;> simp
  · simp [mkAssignedHighlight, jsLtOpt, h]
  · simp [getAssignedPriorityScore, jsLtOpt, h]
  · simp [staleCount, jsLtOpt, h]

/-- Witness for C10 at the concrete scenario MR with an all-NaN parse oracle. -/
theorem nanTimestamp_notStale_C10_witness :
    noneParse scenarioMR.updated_at = none ∧
    ("Stale" ∉ buildHighlightTags noneParse (pipelineStatusOf scenarioMR)
        scenarioMR.merge_status (draftOf scenarioMR) scenarioMR.updated_at
        (0 - staleMs) ∧
     (mkAssignedHighlight noneParse (0 - staleMs) scenarioMR).isStale = some false ∧
     getAssignedPriorityScore noneParse (0 - staleMs) scenarioMR =
       (if pipelineStatusOf scenarioMR = some "failed" then 3 else 0)
       + (if scenarioMR.merge_status = some "cannot_be_merged" then 3 else 0)
       - (if draftOf scenarioMR then 1 else 0) ∧
     staleCount noneParse (0 - staleMs) (scenarioMR :: []) =
       staleCount noneParse (0 - staleMs) []) :=
  ⟨rfl, nanTimestamp_notStale_C10 noneParse 0 scenarioMR [] rfl⟩

/-! ### Order properties of the assigned-highlight comparator

When every date string parses (no NaN timestamps), the comparator relation is
a total preorder, so the ES2019 stable sort is fully characterised by
`List.mergeSort`. -/

/-- Under a total parse oracle, `assignedLE` is the lexicographic
"score descending, then parsed time descending" preorder. -/
theorem assignedLE_eq_true_iff (parse : String → Option Int) (th : Int)
    (hparse : ∀ s, (parse s).isSome) (a b : GitLabMergeRequest) :
    assignedLE parse th a b = true ↔
      (getAssignedPriorityScore parse th b < getAssignedPriorityScore parse th a
       ∨ (getAssignedPriorityScore parse th b = getAssignedPriorityScore parse th a
          ∧ (parse b.updated_at).getD 0 ≤ (parse a.updated_at).getD 0)) := by
  obtain ⟨ta, hta⟩ := Option.isSome_iff_exists.mp (hparse a.updated_at)
  obtain ⟨tb, htb⟩ := Option.isSome_iff_exists.mp (hparse b.updated_at)
  simp only [assignedLE, assignedCmp, hta, htb, Option.getD_some, decide_eq_true_eq]
  split <;> omega

/-- Transitivity of `assignedLE` under a total parse oracle. -/
theorem assignedLE_trans (parse : String → Option Int) (th : Int)
    (hparse : ∀ s, (parse s).isSome) (a b c : GitLabMergeRequest)
    (hab : assignedLE parse th a b) (hbc : assignedLE parse th b c) :
    assignedLE parse th a c := by
  rw [assignedLE_eq_true_iff parse th hparse] at hab hbc ⊢
  omega

/-- Totality of `assignedLE` under a total parse oracle. -/
theorem assignedLE_total (parse : String → Option Int) (th : Int)
    (hparse : ∀ s, (parse s).isSome) (a b : GitLabMergeRequest) :
    assignedLE parse th a b || assignedLE parse th b a := by
  rw [Bool.or_eq_true, assignedLE_eq_true_iff parse th hparse,
    assignedLE_eq_true_iff parse th hparse]
  omega

/-- **C1.** For every MR batch whose timestamps all parse, the assigned
highlight list is built from the batch sorted by the claimed priority score —
+3 pipeline failed, +3 cannot_be_merged, +2 stale (updated before now − 48 h),
−1 draft/WIP — descending, ties broken by most-recently-updated first, and is
truncated to at most 10 entries. -/
theorem assigned_ranking_C1 (parse : String → Option Int) (now : Int)
    (mrs : List GitLabMergeRequest) (hparse : ∀ s, (parse s).isSome) :
    (∀ mr, getAssignedPriorityScore parse (now - staleMs) mr =
        (if pipelineStatusOf mr = some "failed" then 3 else 0)
        + (if mr.merge_status = some "cannot_be_merged" then 3 else 0)
        + (if (parse mr.updated_at).getD 0 < now - staleMs then 2 else 0)
        - (if draftOf mr then 1 else 0)) ∧
    (assignedOrder parse now mrs).Perm mrs ∧
    List.Pairwise (fun a b =>
        getAssignedPriorityScore parse (now - staleMs) a
          > getAssignedPriorityScore parse (now - staleMs) b
        ∨ (getAssignedPriorityScore parse (now - staleMs) a
             = getAssignedPriorityScore parse (now - staleMs) b
           ∧ (parse b.updated_at).getD 0 ≤ (parse a.updated_at).getD 0))
      (assignedOrder parse now mrs) ∧
    (buildGitLabInsights parse now mrs).highlights =
      ((assignedOrder parse now mrs).take 10).map
        (mkAssignedHighlight parse (now - staleMs)) ∧
    (buildGitLabInsights parse now mrs).highlights.length ≤ 10 := by
  refine ⟨?_, ?_, ?_, rfl, ?_⟩
  · intro mr
    obtain ⟨t, ht⟩ := Option.isSome_iff_exists.mp (hparse mr.updated_at)
    simp [getAssignedPriorityScore, jsLtOpt, ht]
  · exact List.mergeSort_perm mrs _
  · refine List.Pairwise.imp ?_
      (List.sorted_mergeSort
        (assignedLE_trans parse (now - staleMs) hparse)
        (assignedLE_total parse (now - staleMs) hparse) mrs)
    intro a b h
    rw [assignedLE_eq_true_iff parse (now - staleMs) hparse] at h
    omega
  · simp only [buildGitLabInsights, List.length_map, List.length_take]
    omega

/-- Witness for C1 at the concrete scenario MR under a total parse oracle. -/
theorem assigned_ranking_C1_witness :
    (∀ s, (zeroParse s).isSome) ∧
    ((∀ mr, getAssignedPriorityScore zeroParse (0 - staleMs) mr =
        (if pipelineStatusOf mr = some "failed" then 3 else 0)
        + (if mr.merge_status = some "cannot_be_merged" then 3 else 0)
        + (if (zeroParse mr.updated_at).getD 0 < 0 - staleMs then 2 else 0)
        - (if draftOf mr then 1 else 0)) ∧
    (assignedOrder zeroParse 0 [scenarioMR]).Perm [scenarioMR] ∧
    List.Pairwise (fun a b =>
        getAssignedPriorityScore zeroParse (0 - staleMs) a
          > getAssignedPriorityScore zeroParse (0 - staleMs) b
        ∨ (getAssignedPriorityScore zeroParse (0 - staleMs) a
             = getAssignedPriorityScore zeroParse (0 - staleMs) b
           ∧ (zeroParse b.updated_at).getD 0 ≤ (zeroParse a.updated_at).getD 0))
      (assignedOrder zeroParse 0 [scenarioMR]) ∧
    (buildGitLabInsights zeroParse 0 [scenarioMR]).highlights =
      ((assignedOrder zeroParse 0 [scenarioMR]).take 10).map
        (mkAssignedHighlight zeroParse (0 - staleMs)) ∧
    (buildGitLabInsights zeroParse 0 [scenarioMR]).highlights.length ≤ 10) :=
  ⟨fun _ => rfl, assigned_ranking_C1 zeroParse 0 [scenarioMR] (fun _ => rfl)⟩

/-! ### Order properties of the reviewer-queue comparator -/

/-- Under a total parse oracle, `reviewerLE` is the lexicographic
"base category ascending, then score descending, then parsed time descending"
preorder. -/
theorem reviewerLE_eq_true_iff (parse : String → Option Int) (th : Int)
    (username : String) (hparse : ∀ s, (parse s).isSome)
    (a b : GitLabMergeRequest) :
    reviewerLE parse th username a b = true ↔
      (baseCategoryRank username a < baseCategoryRank username b
       ∨ (baseCategoryRank username a = baseCategoryRank username b
          ∧ (getAssignedPriorityScore parse th b < getAssignedPriorityScore parse th a
             ∨ (getAssignedPriorityScore parse th b = getAssignedPriorityScore parse th a
                ∧ (parse b.updated_at).getD 0 ≤ (parse a.updated_at).getD 0)))) := by
  obtain ⟨ta, hta⟩ := Option.isSome_iff_exists.mp (hparse a.updated_at)
  obtain ⟨tb, htb⟩ := Option.isSome_iff_exists.mp (hparse b.updated_at)
  simp only [reviewerLE, reviewerCmp, baseCategoryRank, hta, htb,
    Option.getD_some, decide_eq_true_eq]
  split <;> [omega; (split <;> omega)]

/-- Transitivity of `reviewerLE` under a total parse oracle. -/
theorem reviewerLE_trans (parse : String → Option Int) (th : Int)
    (username : String) (hparse : ∀ s, (parse s).isSome)
    (a b c : GitLabMergeRequest)
    (hab : reviewerLE parse th username a b)
    (hbc : reviewerLE parse th username b c) :
    reviewerLE parse th username a c := by
  rw [reviewerLE_eq_true_iff parse th username hparse] at hab hbc ⊢
  omega

/-- Totality of `reviewerLE` under a total parse oracle. -/
theorem reviewerLE_total (parse : String → Option Int) (th : Int)
    (username : String) (hparse : ∀ s, (parse s).isSome)
    (a b : GitLabMergeRequest) :
    reviewerLE parse th username a b || reviewerLE parse th username b a := by
  rw [Bool.or_eq_true, reviewerLE_eq_true_iff parse th username hparse,
    reviewerLE_eq_true_iff parse th username hparse]
  omega

/-- **C4 (amended).** The reviewer highlight list is the batch sorted by the
review category computed from the *base* (pre-annotation) `ReviewState` —
needs-review first, then in-review, then reviewed — with ties broken by the
same priority-score/recency rule as for assigned highlights; the per-item
annotation then rewrites categories in place without re-sorting, and never
drops or reorders entries. -/
theorem reviewer_order_C4 (parse : String → Option Int) (now : Int)
    (cfg : GitLabConfig) (oracles : FetchOracles)
    (mrs : List GitLabMergeRequest) (hparse : ∀ s, (parse s).isSome) :
    (reviewerBaseOrder parse now cfg.username mrs).Perm mrs ∧
    List.Pairwise (fun a b =>
        baseCategoryRank cfg.username a < baseCategoryRank cfg.username b
        ∨ (baseCategoryRank cfg.username a = baseCategoryRank cfg.username b
           ∧ (getAssignedPriorityScore parse (now - staleMs) a
                > getAssignedPriorityScore parse (now - staleMs) b
              ∨ (getAssignedPriorityScore parse (now - staleMs) a
                   = getAssignedPriorityScore parse (now - staleMs) b
                 ∧ (parse b.updated_at).getD 0 ≤ (parse a.updated_at).getD 0))))
      (reviewerBaseOrder parse now cfg.username mrs) ∧
    (buildReviewerInsights parse now cfg oracles mrs).highlights =
      annotateReviewerHighlights cfg oracles
        ((reviewerBaseOrder parse now cfg.username mrs).map
          (mkReviewerBaseHighlight cfg.username)) ∧
    (buildReviewerInsights parse now cfg oracles mrs).highlights.length
      = mrs.length := by
  refine ⟨List.mergeSort_perm mrs _, ?_, rfl, ?_⟩
  · refine List.Pairwise.imp ?_
      (List.sorted_mergeSort
        (reviewerLE_trans parse (now - staleMs) cfg.username hparse)
        (reviewerLE_total parse (now - staleMs) cfg.username hparse) mrs)
    intro a b h
    rw [reviewerLE_eq_true_iff parse (now - staleMs) cfg.username hparse] at h
    omega
  · simp only [buildReviewerInsights, annotateReviewerHighlights,
      reviewerBaseOrder]
    split <;> simp

/-- Witness for C4 (amended) on the empty reviewer queue under a total parse
oracle and always-failing fetch oracles. -/
theorem reviewer_order_C4_witness :
    (∀ s, (zeroParse s).isSome) ∧
    ((reviewerBaseOrder zeroParse 0 failCfgW.username []).Perm [] ∧
    List.Pairwise (fun a b =>
        baseCategoryRank failCfgW.username a < baseCategoryRank failCfgW.username b
        ∨ (baseCategoryRank failCfgW.username a = baseCategoryRank failCfgW.username b
           ∧ (getAssignedPriorityScore zeroParse (0 - staleMs) a
                > getAssignedPriorityScore zeroParse (0 - staleMs) b
              ∨ (getAssignedPriorityScore zeroParse (0 - staleMs) a
                   = getAssignedPriorityScore zeroParse (0 - staleMs) b
                 ∧ (zeroParse b.updated_at).getD 0 ≤ (zeroParse a.updated_at).getD 0))))
      (reviewerBaseOrder zeroParse 0 failCfgW.username []) ∧
    (buildReviewerInsights zeroParse 0 failCfgW failOraclesW []).highlights =
      annotateReviewerHighlights failCfgW failOraclesW
        ((reviewerBaseOrder zeroParse 0 failCfgW.username []).map
          (mkReviewerBaseHighlight failCfgW.username)) ∧
    (buildReviewerInsights zeroParse 0 failCfgW failOraclesW []).highlights.length
      = ([] : List GitLabMergeRequest).length) :=
  ⟨fun _ => rfl, reviewer_order_C4 zeroParse 0 failCfgW failOraclesW [] (fun _ => rfl)⟩

/-- **C4 (counterexample).** The claim as stated — the final list is ordered by
each highlight's *final* category — is false: the sort happens before
annotation and the list is never re-sorted.  With two resolved, unapproved MRs
where the one with `user_notes_count = 0` turns out to have a note on the
notes endpoint and the one with `user_notes_count = 1` turns out to have none,
the final list is `[in-review, needs-review]`, with a needs-review item
*after* an in-review item. -/
theorem reviewer_order_C4_cex :
    ((buildReviewerInsights noneParse 0 failCfgW rvOracles
        [rvMrNoNote, rvMrWithNote]).highlights.map (fun h => h.reviewCategory))
      = [some .inReview, some .needsReview] ∧
    categoryOrder .needsReview < categoryOrder .inReview := by
  have hsort : List.mergeSort [rvMrNoNote, rvMrWithNote]
      (reviewerLE noneParse (0 - staleMs) failCfgW.username)
      = [rvMrNoNote, rvMrWithNote] :=
    List.mergeSort_of_sorted (by decide)
  refine ⟨?_, by decide⟩
  simp only [buildReviewerInsights, reviewerBaseOrder, hsort]
  decide

/-- **C3 (amended).** For every highlight with a usable (non-zero) project id
and iid, the annotator never aborts the batch (every entry is processed
independently and in place); on a notes-fetch failure the `commented` field
keeps its prior value coerced with `?? false` (an absent prior value becomes
`false`); a discussions fetch is only attempted when `commentsResolved` was
absent, and on failure it stays absent (a present prior value is kept
verbatim); the final `ReviewState` recomputes `reviewed` as
`commented OR approved`, and tags and category are recomputed from the
updated state. -/
theorem annotate_retention_C3 (cfg : GitLabConfig) (oracles : FetchOracles)
    (hs : List StatusHighlight) (h : StatusHighlight) (p i : Int)
    (hp : h.projectId = some p) (hi : h.iid = some i)
    (hp0 : p ≠ 0) (hi0 : i ≠ 0)
    (htok : jsFalsyStr cfg.token = false) (huser : cfg.username ≠ "") :
    annotateReviewerHighlights cfg oracles hs = hs.map (annotateOne oracles) ∧
    (annotateReviewerHighlights cfg oracles hs).length = hs.length ∧
    (oracles.notes p i = .error () →
      ((annotateOne oracles h).reviewState.bind (·.commented))
        = some ((h.reviewState.bind (·.commented)).getD false)) ∧
    (∀ b, h.reviewState.bind (·.commentsResolved) = some b →
      ((annotateOne oracles h).reviewState.bind (·.commentsResolved)) = some b) ∧
    (h.reviewState.bind (·.commentsResolved) = none →
      oracles.discussions p i = .error () →
      ((annotateOne oracles h).reviewState.bind (·.commentsResolved)) = none) ∧
    ((annotateOne oracles h).reviewState.bind (·.reviewed)
      = (if ((annotateOne oracles h).reviewState.bind (·.commented)).getD false
         then some true
         else h.reviewState.bind (·.approved))) ∧
    (∀ s, (annotateOne oracles h).reviewState = some s →
      (annotateOne oracles h).reviewCategory
          = some (getReviewCategory (some s)) ∧
      (annotateOne oracles h).tags
          = some (buildReviewTags s (h.pipelineStatus = some "failed")
              (h.hasConflicts.getD false)
              (some (getReviewCategory (some s))))) := by
  have hguard : ¬ (p = 0 ∨ i = 0) := fun hc => hc.elim hp0 hi0
  have hbatch : annotateReviewerHighlights cfg oracles hs
      = hs.map (annotateOne oracles) := by
    simp only [annotateReviewerHighlights, htok, huser]
    simp
  refine ⟨hbatch, by simp [hbatch], ?_, ?_, ?_, ?_, ?_⟩
  · intro hn
    simp only [annotateOne, hp, hi, if_neg hguard, hn]
    simp
  · intro b hb
    simp only [annotateOne, hp, hi, if_neg hguard, hb]
    simp
  · intro hb hd
    simp only [annotateOne, hp, hi, if_neg hguard, hb, hd]
    simp
  · simp only [annotateOne, hp, hi, if_neg hguard]
    split <;> simp_all
  · intro s hs'
    simp only [annotateOne, hp, hi, if_neg hguard] at hs' ⊢
    simp only [Option.some.injEq] at hs'
    subst hs'
    simp

/-- **C3 (counterexample).** The claim's "the prior/base value of the
corresponding ReviewState field is retained" is false verbatim for
`commented`: when the base value is absent and the notes fetch fails, the
final field is `some false`, not the prior `none` (the code re-applies the
`?? false` coercion in the catch branch). -/
theorem annotate_retention_C3_cex :
    failOraclesW.notes 3 1 = .error () ∧
    annotHighlightBase.reviewState.bind (·.commented) = none ∧
    (annotateOne failOraclesW annotHighlightBase).reviewState.bind (·.commented)
      = some false := by
  refine ⟨rfl, rfl, ?_⟩
  decide

/-- Witness for C3 (amended) at the concrete highlight with an absent base
`commented` field, a failing fetch pair, and a non-empty configuration. -/
theorem annotate_retention_C3_witness :
    (annotHighlightBase.projectId = some 3 ∧ annotHighlightBase.iid = some 1 ∧
     (3 : Int) ≠ 0 ∧ (1 : Int) ≠ 0 ∧
     jsFalsyStr failCfgW.token = false ∧ failCfgW.username ≠ "") ∧
    (annotateReviewerHighlights failCfgW failOraclesW [annotHighlightBase]
        = [annotHighlightBase].map (annotateOne failOraclesW) ∧
     (annotateReviewerHighlights failCfgW failOraclesW [annotHighlightBase]).length
        = [annotHighlightBase].length ∧
     (failOraclesW.notes 3 1 = .error () →
       ((annotateOne failOraclesW annotHighlightBase).reviewState.bind (·.commented))
         = some ((annotHighlightBase.reviewState.bind (·.commented)).getD false)) ∧
     (∀ b, annotHighlightBase.reviewState.bind (·.commentsResolved) = some b →
       ((annotateOne failOraclesW annotHighlightBase).reviewState.bind
          (·.commentsResolved)) = some b) ∧
     (annotHighlightBase.reviewState.bind (·.commentsResolved) = none →
       failOraclesW.discussions 3 1 = .error () →
       ((annotateOne failOraclesW annotHighlightBase).reviewState.bind
          (·.commentsResolved)) = none) ∧
     ((annotateOne failOraclesW annotHighlightBase).reviewState.bind (·.reviewed)
       = (if ((annotateOne failOraclesW annotHighlightBase).reviewState.bind
              (·.commented)).getD false
          then some true
          else annotHighlightBase.reviewState.bind (·.approved))) ∧
     (∀ s, (annotateOne failOraclesW annotHighlightBase).reviewState = some s →
       (annotateOne failOraclesW annotHighlightBase).reviewCategory
           = some (getReviewCategory (some s)) ∧
       (annotateOne failOraclesW annotHighlightBase).tags
           = some (buildReviewTags s
               (annotHighlightBase.pipelineStatus = some "failed")
               (annotHighlightBase.hasConflicts.getD false)
               (some (getReviewCategory (some s)))))) :=
  ⟨⟨rfl, rfl, by decide, by decide, rfl, by decide⟩,
   annotate_retention_C3 failCfgW failOraclesW [annotHighlightBase]
     annotHighlightBase 3 1 rfl rfl (by decide) (by decide) rfl (by decide)⟩

/-- **C5 (counterexample).** The claim's "scanning ... starting from now" is
false for `extractNextRain`: it takes no notion of "now" and scans the series
from its first entry.  With `now` = 3 600 000 ms and a single qualifying hour
at time 0 (strictly in the past), the claim mandates "no rain", yet the
function reports that past hour's label. -/
theorem next_rain_C5_cex :
    extractNextRain wParse wFmt (some pastHourly) = some (wFmt 0) ∧
    wParse "h0" = some 0 ∧ (0 : Int) < 3600000 := by
  refine ⟨?_, rfl, by decide⟩
  decide

/-- **C5 (amended).** The time-label variant `extractNextRain` scans the
hourly series from its first entry regardless of the current time, returning
the label of the first hour with probability ≥ 40% or amount > 0 whose
timestamp parses (a qualifying hour with an unparsable timestamp is skipped);
only the detailed minutes variant `computeNextRainMinutes` restricts the scan
to samples at or after now, returning `⌊(t − now) / 60000⌋`; when no hour
qualifies, no rain is reported.  In the spec's scenario
`[{t0,10%,0mm},{t1,45%,0mm},{t2,90%,2mm}]` both variants select `t1`,
not `t2`. -/
theorem next_rain_C5 :
    extractNextRain wParse wFmt (some scenarioHourly) = some (wFmt 3600000) ∧
    computeNextRainMinutes wParse 0 (some scenarioSamples) = some 60 ∧
    (∀ (parse : String → Option Int) (fmt : Int → String) (t : String)
        (rest : List String) (probs : List Rat) (precip : Option (List Rat))
        (i : Nat) (ts : Int),
      rainHourQualifies probs precip i = true → parse t = some ts →
      extractNextRainGo parse fmt probs precip (t :: rest) i = some (fmt ts)) ∧
    (∀ (parse : String → Option Int) (fmt : Int → String) (t : String)
        (rest : List String) (probs : List Rat) (precip : Option (List Rat))
        (i : Nat),
      parse t = none →
      extractNextRainGo parse fmt probs precip (t :: rest) i
        = extractNextRainGo parse fmt probs precip rest (i + 1)) ∧
    (∀ (parse : String → Option Int) (fmt : Int → String) (times : List String)
        (probs : List Rat) (precip : Option (List Rat)),
      (∀ j, rainHourQualifies probs precip j = false) →
      extractNextRain parse fmt
        (some { time := some times, precipitation_probability := some probs
              , precipitation := precip }) = none) ∧
    (∀ (parse : String → Option Int) (now : Int) (s : RainSample)
        (rest : List RainSample) (ts : Int),
      parse s.time = some ts → ts < now →
      computeNextRainMinutes parse now (some (s :: rest))
        = computeNextRainMinutes parse now (some rest)) ∧
    (∀ (parse : String → Option Int) (now : Int) (s : RainSample)
        (rest : List RainSample) (ts : Int),
      parse s.time = some ts → now ≤ ts →
      (40 ≤ s.probability ∨ 0 < s.amount) →
      computeNextRainMinutes parse now (some (s :: rest))
        = some ((ts - now) / 60000)) := by
  refine ⟨by decide, by decide, ?_, ?_, ?_, ?_, ?_⟩
  · intro parse fmt t rest probs precip i ts hq hp
    simp [extractNextRainGo, hq, hp]
  · intro parse fmt t rest probs precip i hp
    by_cases hq : rainHourQualifies probs precip i = true <;>
      simp [extractNextRainGo, hq, hp]
  · intro parse fmt times probs precip hq
    simp only [extractNextRain]
    suffices hgen : ∀ (l : List String) (i : Nat),
        extractNextRainGo parse fmt probs precip l i = none by
      exact hgen times 0
    intro l
    induction l with
    | nil => intro i; rfl
    | cons t rest ih =>
      intro i
      simp [extractNextRainGo, hq i, ih (i + 1)]
  · intro parse now s rest ts hp hlt
    have hpred : nextRainSamplePred parse now s = false := by
      simp [nextRainSamplePred, hp]
      omega
    cases rest with
    | nil =>
      simp [computeNextRainMinutes, List.find?, hpred]
    | cons r rs =>
      simp [computeNextRainMinutes, List.find?, hpred]
  · intro parse now s rest ts hp hge hq
    have hpred : nextRainSamplePred parse now s = true := by
      simp only [nextRainSamplePred, hp]
      rcases hq with hq | hq
      · simp [hq, hge]
      · simp [hq, hge]
    have hd : ¬ (ts - now < 0) := by omega
    simp [computeNextRainMinutes, List.find?, hpred, hp, hd]

/-- Witness for C5 (amended): the head-hour rule applied to a concrete
single-entry qualifying series. -/
theorem next_rain_C5_witness :
    rainHourQualifies [90] (some [2]) 0 = true ∧
    wParse "h0" = some 0 ∧
    extractNextRainGo wParse wFmt [90] (some [2]) ["h0"] 0 = some (wFmt 0) :=
  ⟨by decide, rfl,
    next_rain_C5.2.2.1 wParse wFmt "h0" [] [90] (some [2]) 0 0 (by decide) rfl⟩

/-- The scored map/filter/slice pipeline of the palette equals a plain
order-preserving filter followed by a cap. -/
theorem paletteScored_eq_filter_take (needle : String) :
    ∀ (commands : List CommandItem) (k : Nat),
      (((commands.map (fun item =>
            (item, if jsIncludes (commandHaystack item) needle then 1 else 0))).filter
          (fun scored => scored.2 > 0)).take k).map (fun scored => scored.1)
        = (commands.filter
            (fun item => jsIncludes (commandHaystack item) needle)).take k := by
  intro commands
  induction commands with
  | nil => intro k; simp
  | cons c cs ih =>
    intro k
    by_cases hc : jsIncludes (commandHaystack c) needle
    · cases k with
      | zero => simp [hc]
      | succ k => simp [hc, ih k]
    · simp [hc, ih k]

/-- **C6.** The palette filter matches the trimmed, lowercased query as a
substring of the space-joined label/description/keywords haystack (so a query
matching only a keyword still matches, case-insensitively); all matches are
returned in source order with no further ranking, capped to 24; an empty query
yields the first 12 items as defaults. -/
theorem palette_filter_C6 (query : String) (commands : List CommandItem) :
    (query = "" → paletteFiltered query commands = commands.take 12) ∧
    (jsToLower (jsTrim query) ≠ "" →
      paletteFiltered query commands
        = (commands.filter (fun item =>
            jsIncludes (commandHaystack item) (jsToLower (jsTrim query)))).take 24) ∧
    (paletteFiltered query commands).Sublist commands ∧
    (paletteFiltered query commands).length ≤ 24 ∧
    (∀ q, jsToLower (jsTrim query) = jsToLower (jsTrim q) →
      paletteFiltered query commands = paletteFiltered q commands) ∧
    paletteFiltered "GitLab" [kwItem] = [kwItem] ∧
    jsIncludes (jsToLower kwItem.label) "gitlab" = false := by
  have hcore : jsToLower (jsTrim query) ≠ "" →
      paletteFiltered query commands
        = (commands.filter (fun item =>
            jsIncludes (commandHaystack item) (jsToLower (jsTrim query)))).take 24 := by
    intro hq
    simp only [paletteFiltered, if_neg hq]
    exact paletteScored_eq_filter_take (jsToLower (jsTrim query)) commands 24
  refine ⟨?_, hcore, ?_, ?_, ?_, by decide, by decide⟩
  · intro hq
    subst hq
    rfl
  · by_cases hq : jsToLower (jsTrim query) = ""
    · simp only [paletteFiltered, if_pos hq]
      exact List.take_sublist 12 commands
    · rw [hcore hq]
      exact ((commands.filter _).take_sublist 24).trans commands.filter_sublist
  · by_cases hq : jsToLower (jsTrim query) = ""
    · simp only [paletteFiltered, if_pos hq, List.length_take]
      omega
    · rw [hcore hq]
      simp only [List.length_take]
      omega
  · intro q hq
    simp only [paletteFiltered, hq]

/-- Witness for C6: an empty query returns the first 12 items, and the query
`"GitLab"` matches a command whose only occurrence of "gitlab" is a keyword. -/
theorem palette_filter_C6_witness :
    paletteFiltered "" [kwItem] = [kwItem].take 12 ∧
    paletteFiltered "GitLab" [kwItem] = [kwItem] :=
  ⟨(palette_filter_C6 "" [kwItem]).1 rfl,
   (palette_filter_C6 "GitLab" [kwItem]).2.2.2.2.2.1⟩

/-- **C9 (counterexample).** The claim is false on two points: validity is
judged on the *trim-normalized* value, not the raw entered string.  Entering
`" UTC "` (invalid as an identifier because of the padding) resolves to
`"UTC"`, not to the system zone as the claim requires; and entering `""`
(also not a valid identifier) shows *no* warning, because the blank entry is
first replaced by the (valid) system zone. -/
theorem timezone_resolution_C9_cex :
    resolvedTimeZone tzValidUTC "Europe/Amsterdam" " UTC " = "UTC" ∧
    tzValidUTC " UTC " = false ∧
    ("UTC" : String) ≠ "Europe/Amsterdam" ∧
    timeZoneWarningShown tzValidUTC "Europe/Amsterdam" "" = false ∧
    tzValidUTC "" = false := by
  refine ⟨?_, by decide, by decide, ?_, by decide⟩ <;> decide

/-- **C9 (amended).** The entered string is trimmed and a blank entry is
replaced by the system timezone; the resolved timezone equals this normalized
value when it is a valid identifier and the system timezone otherwise; the
inline warning is shown exactly when the normalized value is invalid
(validation is re-run as a pure function of every new setting value); and the
raw entered string — valid or not — remains in the editable input. -/
theorem timezone_resolution_C9 (isValid : String → Bool)
    (system setting : String) :
    (jsTrim setting ≠ "" → normalizedTimeZone system setting = jsTrim setting) ∧
    (jsTrim setting = "" → normalizedTimeZone system setting = system) ∧
    (isValid (normalizedTimeZone system setting) = true →
      resolvedTimeZone isValid system setting
        = normalizedTimeZone system setting) ∧
    (isValid (normalizedTimeZone system setting) = false →
      resolvedTimeZone isValid system setting = system) ∧
    (timeZoneWarningShown isValid system setting = true ↔
      isValid (normalizedTimeZone system setting) = false) ∧
    timeZoneInputValue setting = setting := by
  refine ⟨fun h => by simp [normalizedTimeZone, h],
    fun h => by simp [normalizedTimeZone, h], fun h => by simp [resolvedTimeZone, h],
    fun h => by simp [resolvedTimeZone, h], ?_, rfl⟩
  simp [timeZoneWarningShown, timeZoneValid]

/-- Witness for C9 (amended) at a valid non-blank entry. -/
theorem timezone_resolution_C9_witness :
    jsTrim "UTC" ≠ "" ∧
    tzValidUTC (normalizedTimeZone "Europe/Amsterdam" "UTC") = true ∧
    (normalizedTimeZone "Europe/Amsterdam" "UTC" = jsTrim "UTC" ∧
     resolvedTimeZone tzValidUTC "Europe/Amsterdam" "UTC"
       = normalizedTimeZone "Europe/Amsterdam" "UTC" ∧
     timeZoneInputValue "UTC" = "UTC") :=
  ⟨by decide, by decide,
   (timezone_resolution_C9 tzValidUTC "Europe/Amsterdam" "UTC").1 (by decide),
   (timezone_resolution_C9 tzValidUTC "Europe/Amsterdam" "UTC").2.2.1 (by decide),
   (timezone_resolution_C9 tzValidUTC "Europe/Amsterdam" "UTC").2.2.2.2.2⟩
